import Mathlib

/-!
# FindMyCat location pipeline — verification development

Shallow embedding of the location-update pipeline of the FindMyCat
repository, and proofs of the specification's claims about it.

Covered components:
* the server ingest endpoints `POST /api/locations/update` and
  `POST /api/locations/batch-update` over the SQLite store
  (`backend/src/database.ts`, the server in `src/unnamed/part_003` /
  `part_004`);
* the PostgreSQL persistence layer (`backend/src/postgres.ts`,
  `PostgresDatabase.addLocation` and its transaction);
* the Swift client upload filter
  (`FindMyCatClient/LocationUploadFilter.swift`, `src/unnamed/part_007`);
* the viewer state reconciliation (`socket.on('location_update')` handler
  in `App.tsx`, `src/unnamed/part_000`) and the map viewport auto-fit
  logic (`CatMap.tsx`: `MapBoundsUpdater`, `InteractionLock`).

Timestamps handled by the backend are modelled as `String` ordered
lexicographically: the SQL `ORDER BY timestamp DESC` on a `TEXT` column
and the JavaScript `!==` comparison both operate on the raw string.
Timestamps on the viewer side are modelled as `ℤ` (the millisecond value
produced by `new Date(...)`), since the viewer compares parsed dates.
JavaScript numbers are modelled as `ℚ`.
-/

namespace FindMyCat

/-- Decision procedure for the lexicographic order on strings, going
through the order on the underlying character lists
(`String.lt_iff_toList_lt`). The default `String.decidableLT` decides
through UTF-8 byte iterators, which the kernel cannot evaluate; this one
decides the very same order and lets concrete scenarios be checked by
`decide`. -/
instance (priority := 2000) strLtDec : @DecidableRel String (· < ·) :=
  fun a b => decidable_of_iff (a.toList < b.toList) String.lt_iff_toList_lt.symm

namespace Sqlite

/-- A stored row of the SQLite `locations` table
(`backend/src/database.ts`, `initTables`). The autoincrement `id` and
`created_at` columns are omitted: no claim depends on them. -/
structure Row where
  deviceId : String
  latitude : ℚ
  longitude : ℚ
  timestamp : String
deriving DecidableEq

/-- The SQLite store: the `locations` table in insertion order.
`Database.addLocation` is a plain `INSERT`, i.e. an append. -/
abbrev DbState := List Row

/-- `Database.getLatestLocation` (`backend/src/database.ts` lines 68-82):
`SELECT * FROM locations WHERE deviceId = ? ORDER BY timestamp DESC LIMIT 1`.
Embedded as the argmax of the lexicographic timestamp over the rows of the
device; SQLite leaves the tie order among equal timestamps unspecified, we
fix the first such row (only the timestamp of the result is ever used by
the callers). -/
def getLatestLocation (rows : DbState) (deviceId : String) : Option Row :=
  (rows.filter fun r => r.deviceId == deviceId).argmax Row.timestamp

/-- The JSON body of a `POST /api/locations/update` request; each field may
be absent. `latitude`/`longitude` being `Option ℚ` captures the
`typeof x !== 'number'` check. -/
structure UpdateBody where
  deviceId : Option String
  latitude : Option ℚ
  longitude : Option ℚ
  timestamp : Option String
deriving DecidableEq

/-- The endpoint validation
(`if (!locationUpdate.deviceId || typeof latitude !== 'number' || ...)`).
A JavaScript empty string is falsy, hence the `≠ ""` checks. Returns the
validated row, or `none` when the request must be rejected / the batch
entry skipped. -/
def parseBody (b : UpdateBody) : Option Row :=
  match b.deviceId, b.latitude, b.longitude, b.timestamp with
  | some d, some lat, some lng, some ts =>
      if d ≠ "" ∧ ts ≠ "" then some ⟨d, lat, lng, ts⟩ else none
  | _, _, _, _ => none

/-- Result of the single-update endpoint: HTTP 400 on validation failure,
otherwise `{success: true, location, isNew}`. -/
inductive UpdateResult where
  | badRequest (error : String)
  | ok (location : Row) (isNew : Bool)
deriving DecidableEq

/-- `app.post('/api/locations/update')` (`src/unnamed/part_003` lines
249-294): validate; fetch the device's latest stored row; if it exists and
its timestamp equals the candidate's, answer `isNew=false` with no write
and no broadcast; otherwise `INSERT` the row, broadcast it
(`io.emit('location_update', savedLocation)`) and answer `isNew=true`.
Returns (new store, HTTP response, list of broadcast payloads). -/
def handleLocationUpdate (db : DbState) (body : UpdateBody) :
    DbState × UpdateResult × List Row :=
  match parseBody body with
  | none =>
      (db, UpdateResult.badRequest
        "Missing required fields: deviceId, latitude, longitude, timestamp", [])
  | some r =>
      match getLatestLocation db r.deviceId with
      | none => (db ++ [r], UpdateResult.ok r true, [r])
      | some e =>
          if e.timestamp = r.timestamp then (db, UpdateResult.ok e false, [])
          else (db ++ [r], UpdateResult.ok r true, [r])

/-- Accumulated outcome of the batch loop in
`app.post('/api/locations/batch-update')`: final store, `processed`
(`results.length`), `newLocations` (`results.filter(r => r.isNew).length`)
and the broadcast payloads emitted along the way. -/
structure BatchOut where
  db : DbState
  processed : Nat
  newLocations : Nat
  broadcasts : List Row
deriving DecidableEq

/-- The `for (const update of locationUpdates)` loop of
`app.post('/api/locations/batch-update')` (`src/unnamed/part_003` lines
297-345): invalid entries `continue` (silently skipped); valid entries run
the same latest-timestamp dedup as the single endpoint. -/
def processBatch (db : DbState) : List UpdateBody → BatchOut
  | [] => ⟨db, 0, 0, []⟩
  | u :: rest =>
      match parseBody u with
      | none => processBatch db rest
      | some r =>
          match getLatestLocation db r.deviceId with
          | none =>
              let out := processBatch (db ++ [r]) rest
              ⟨out.db, out.processed + 1, out.newLocations + 1, r :: out.broadcasts⟩
          | some e =>
              if e.timestamp = r.timestamp then
                let out := processBatch db rest
                ⟨out.db, out.processed + 1, out.newLocations, out.broadcasts⟩
              else
                let out := processBatch (db ++ [r]) rest
                ⟨out.db, out.processed + 1, out.newLocations + 1, r :: out.broadcasts⟩

/-- The batch endpoint on an array body: run the loop and answer
`{success: true, processed, newLocations}`. -/
def handleBatchUpdate (db : DbState) (updates : List UpdateBody) :
    DbState × Bool × Nat × Nat :=
  let out := processBatch db updates
  (out.db, true, out.processed, out.newLocations)

end Sqlite

namespace Postgres

/-- A row of the PostgreSQL `locations` table
(`backend/src/postgres.ts`, `LocationRecord`): unique on
`(device_id, user_id, timestamp)`. The surrogate `id` and `created_at`
are omitted. -/
structure PGLocation where
  device_id : String
  user_id : String
  latitude : ℚ
  longitude : ℚ
  accuracy : Option ℚ
  altitude : Option ℚ
  speed : Option ℚ
  heading : Option ℚ
  timestamp : String
deriving DecidableEq

/-- The slice of a `devices` row touched by `addLocation`:
its identity `(device_id, user_id)` and `last_seen`. -/
structure PGDevice where
  device_id : String
  user_id : String
  last_seen : String
deriving DecidableEq

/-- The PostgreSQL store as seen by `addLocation`: the `devices` and
`locations` tables. -/
structure PGState where
  devices : List PGDevice
  locations : List PGLocation
deriving DecidableEq

/-- The location payload of `PostgresDatabase.addLocation`
(`backend/src/postgres.ts` lines 329-337). -/
structure LocationInput where
  latitude : ℚ
  longitude : ℚ
  accuracy : Option ℚ
  altitude : Option ℚ
  speed : Option ℚ
  heading : Option ℚ
  timestamp : String
deriving DecidableEq

/-- The `ON CONFLICT (device_id, user_id, timestamp)` key comparison. -/
def sameKey (q : PGLocation) (deviceId userId ts : String) : Bool :=
  q.device_id == deviceId && q.user_id == userId && q.timestamp == ts

/-- The `DO UPDATE SET latitude = EXCLUDED.latitude, ...` clause: the
payload columns of the conflicting row are overwritten, the key columns
are untouched. -/
def overwritePayload (q r : PGLocation) : PGLocation :=
  { q with
    latitude := r.latitude
    longitude := r.longitude
    accuracy := r.accuracy
    altitude := r.altitude
    speed := r.speed
    heading := r.heading }

/-- `UPDATE devices SET last_seen = GREATEST(last_seen, $3) WHERE
user_id = $1 AND device_id = $2` (first statement of the `addLocation`
transaction). -/
def updateLastSeen (devices : List PGDevice) (userId deviceId ts : String) :
    List PGDevice :=
  devices.map fun dev =>
    if dev.user_id == userId && dev.device_id == deviceId then
      { dev with last_seen := max dev.last_seen ts }
    else dev

/-- The `INSERT ... ON CONFLICT (device_id, user_id, timestamp) DO UPDATE
SET ...` upsert: if a row with the key exists it is overwritten in place,
otherwise the row is appended. -/
def upsertLocation (rows : List PGLocation) (r : PGLocation) : List PGLocation :=
  if rows.any fun q => sameKey q r.device_id r.user_id r.timestamp then
    rows.map fun q =>
      if sameKey q r.device_id r.user_id r.timestamp then overwritePayload q r else q
  else rows ++ [r]

/-- The row inserted by `addLocation` for a given user, device and
payload. -/
def mkRow (userId deviceId : String) (loc : LocationInput) : PGLocation :=
  ⟨deviceId, userId, loc.latitude, loc.longitude, loc.accuracy, loc.altitude,
    loc.speed, loc.heading, loc.timestamp⟩

/-- The body of the `addLocation` transaction
(`backend/src/postgres.ts` lines 340-375): update the device's
`last_seen`, then upsert the location row. This is the state produced by
`COMMIT` when both statements succeed. -/
def addLocationTx (s : PGState) (userId deviceId : String) (loc : LocationInput) :
    PGState :=
  { devices := updateLastSeen s.devices userId deviceId loc.timestamp
    locations := upsertLocation s.locations (mkRow userId deviceId loc) }

/-- `PostgresDatabase.addLocation` with fault injection: `insertFails`
injects a failure of the `INSERT` statement. On failure the `catch`
branch issues `ROLLBACK` and rethrows, so the observable store is the
original one (the in-transaction `last_seen` update is discarded); on
success `COMMIT` publishes the transaction body. -/
def addLocation (s : PGState) (userId deviceId : String) (loc : LocationInput)
    (insertFails : Bool) : Except String PGState :=
  if insertFails then Except.error "insert failed"
  else Except.ok (addLocationTx s userId deviceId loc)

/-- `PostgresDatabase.getLatestLocations(userId, deviceId)`
(`backend/src/postgres.ts` lines 388-396):
`SELECT * FROM locations WHERE user_id = $1 AND device_id = $2 ORDER BY
timestamp DESC LIMIT 1`, embedded as in `Sqlite.getLatestLocation`. -/
def getLatestLocations (rows : List PGLocation) (userId deviceId : String) :
    Option PGLocation :=
  (rows.filter fun r => r.user_id == userId && r.device_id == deviceId).argmax
    PGLocation.timestamp

/-- The ingest request body against the PostgreSQL server (same shape as
for the SQLite one, plus the optional accuracy forwarded to
`addLocation`). -/
structure PGBody where
  deviceId : Option String
  latitude : Option ℚ
  longitude : Option ℚ
  timestamp : Option String
  accuracy : Option ℚ
deriving DecidableEq

/-- The endpoint validation of the PostgreSQL server (identical `!x` /
`typeof` checks); yields the device id and the `addLocation` payload. -/
def parsePGBody (b : PGBody) : Option (String × LocationInput) :=
  match b.deviceId, b.latitude, b.longitude, b.timestamp with
  | some d, some lat, some lng, some ts =>
      if d ≠ "" ∧ ts ≠ "" then
        some (d, ⟨lat, lng, b.accuracy, none, none, none, ts⟩)
      else none
  | _, _, _, _ => none

/-- HTTP outcome of `POST /api/locations/update` on the PostgreSQL
server: 400 on validation failure, 500 when persistence throws, otherwise
`{success: true, location, isNew}`. -/
inductive PGUpdateResult where
  | badRequest
  | serverError
  | ok (location : PGLocation) (isNew : Bool)
deriving DecidableEq

/-- `app.post('/api/locations/update')` against the PostgreSQL database
(`src/unnamed/part_003` lines 249-294 / `dist/server-postgres.js`):
validate; dedup against the latest stored row; else persist through the
`addLocation` transaction, and only once it has resolved (committed)
broadcast `location_update` and answer `isNew=true`. A throw from
`addLocation` lands in the `catch` block: HTTP 500, and the broadcast line
is never reached. -/
def handleUpdatePG (s : PGState) (userId : String) (b : PGBody)
    (insertFails : Bool) : PGState × PGUpdateResult × List PGLocation :=
  match parsePGBody b with
  | none => (s, PGUpdateResult.badRequest, [])
  | some (deviceId, input) =>
      let persist : PGState × PGUpdateResult × List PGLocation :=
        match addLocation s userId deviceId input insertFails with
        | Except.error _ => (s, PGUpdateResult.serverError, [])
        | Except.ok s' =>
            let saved := mkRow userId deviceId input
            (s', PGUpdateResult.ok saved true, [saved])
      match getLatestLocations s.locations userId deviceId with
      | none => persist
      | some e =>
          if e.timestamp = input.timestamp then (s, PGUpdateResult.ok e false, [])
          else persist

/-- Rows `q₁ ≠ q₂` never share the `(device_id, user_id, timestamp)` key:
the uniqueness invariant the `locations` table's `ON CONFLICT` target
maintains. -/
def KeysDistinct (rows : List PGLocation) : Prop :=
  rows.Pairwise fun q₁ q₂ =>
    ¬(q₁.device_id = q₂.device_id ∧ q₁.user_id = q₂.user_id
      ∧ q₁.timestamp = q₂.timestamp)

lemma sameKey_overwrite (q r : PGLocation) (d u ts : String) :
    sameKey (overwritePayload q r) d u ts = sameKey q d u ts := rfl

lemma overwrite_overwrite (q r : PGLocation) :
    overwritePayload (overwritePayload q r) r = overwritePayload q r := rfl

lemma overwrite_self (r : PGLocation) : overwritePayload r r = r := rfl

lemma sameKey_self (r : PGLocation) :
    sameKey r r.device_id r.user_id r.timestamp = true := by
  simp [sameKey]

lemma sameKey_upsertFun (r q : PGLocation) :
    sameKey
        (if sameKey q r.device_id r.user_id r.timestamp then overwritePayload q r
          else q)
        r.device_id r.user_id r.timestamp
      = sameKey q r.device_id r.user_id r.timestamp := by
  by_cases h : sameKey q r.device_id r.user_id r.timestamp = true
  · rw [if_pos h, sameKey_overwrite]
  · rw [if_neg h]

lemma upsert_any_key (rows : List PGLocation) (r : PGLocation) :
    (upsertLocation rows r).any
        (fun q => sameKey q r.device_id r.user_id r.timestamp) = true := by
  unfold upsertLocation
  by_cases h : rows.any (fun q => sameKey q r.device_id r.user_id r.timestamp) = true
  · rw [if_pos h]
    obtain ⟨q, hq, hkq⟩ := List.any_eq_true.mp h
    refine List.any_eq_true.mpr ⟨_, List.mem_map_of_mem _ hq, ?_⟩
    rw [sameKey_upsertFun, hkq]
  · rw [if_neg h]
    refine List.any_eq_true.mpr ⟨r, ?_, sameKey_self r⟩
    simp

lemma upsert_idem (rows : List PGLocation) (r : PGLocation) :
    upsertLocation (upsertLocation rows r) r = upsertLocation rows r := by
  conv_lhs => rw [upsertLocation]
  rw [if_pos (upsert_any_key rows r)]
  unfold upsertLocation
  by_cases h : rows.any (fun q => sameKey q r.device_id r.user_id r.timestamp) = true
  · rw [if_pos h, List.map_map]
    refine List.map_congr_left fun q _ => ?_
    simp only [Function.comp_apply]
    by_cases hk : sameKey q r.device_id r.user_id r.timestamp = true
    · simp [hk, sameKey_overwrite, overwrite_overwrite]
    · simp [hk]
  · rw [if_neg h, List.map_append]
    have hfalse : ∀ q ∈ rows, ¬ sameKey q r.device_id r.user_id r.timestamp = true :=
      List.any_eq_false.mp ((Bool.not_eq_true _).mp h)
    have hrows : rows.map (fun q =>
        if sameKey q r.device_id r.user_id r.timestamp then overwritePayload q r
        else q) = rows := by
      have heach : ∀ q ∈ rows, (fun q =>
          if sameKey q r.device_id r.user_id r.timestamp then overwritePayload q r
          else q) q = id q := fun q hq => by simp [hfalse q hq]
      simpa using List.map_congr_left heach
    rw [hrows]
    have hr : (List.map (fun q =>
        if sameKey q r.device_id r.user_id r.timestamp then overwritePayload q r
        else q) [r]) = [r] := by
      simp only [List.map_cons, List.map_nil]
      rw [if_pos (sameKey_self r), overwrite_self]
    rw [hr]

lemma filter_key_length_le_one (rows : List PGLocation) (d u ts : String)
    (hnd : KeysDistinct rows) :
    (rows.filter fun q => sameKey q d u ts).length ≤ 1 := by
  have hpw : (rows.filter fun q => sameKey q d u ts).Pairwise fun q₁ q₂ =>
      ¬(q₁.device_id = q₂.device_id ∧ q₁.user_id = q₂.user_id
        ∧ q₁.timestamp = q₂.timestamp) :=
    hnd.sublist (List.filter_sublist rows)
  cases hf : rows.filter fun q => sameKey q d u ts with
  | nil => simp
  | cons x t =>
      cases t with
      | nil => simp
      | cons y t2 =>
          exfalso
          rw [hf] at hpw
          have hR := (List.pairwise_cons.mp hpw).1 y (by simp)
          have hx : sameKey x d u ts = true :=
            List.of_mem_filter (l := rows) (p := fun q => sameKey q d u ts)
              (by rw [hf]; simp)
          have hy : sameKey y d u ts = true :=
            List.of_mem_filter (l := rows) (p := fun q => sameKey q d u ts)
              (by rw [hf]; simp)
          simp only [sameKey, Bool.and_eq_true, beq_iff_eq] at hx hy
          exact hR ⟨hx.1.1.trans hy.1.1.symm, hx.1.2.trans hy.1.2.symm,
            hx.2.trans hy.2.symm⟩

lemma upsert_count_key (rows : List PGLocation) (r : PGLocation)
    (hnd : KeysDistinct rows) :
    ((upsertLocation rows r).filter
        fun q => sameKey q r.device_id r.user_id r.timestamp).length = 1 := by
  unfold upsertLocation
  by_cases h : rows.any (fun q => sameKey q r.device_id r.user_id r.timestamp) = true
  · rw [if_pos h]
    rw [← List.countP_eq_length_filter, List.countP_map]
    have hcongr : rows.countP
        ((fun q => sameKey q r.device_id r.user_id r.timestamp) ∘
          fun q => if sameKey q r.device_id r.user_id r.timestamp then
            overwritePayload q r else q)
        = rows.countP fun q => sameKey q r.device_id r.user_id r.timestamp := by
      refine List.countP_congr fun q _ => ?_
      simp only [Function.comp_apply]
      by_cases hk : sameKey q r.device_id r.user_id r.timestamp = true
      · simp [hk, sameKey_overwrite]
      · simp [hk]
    rw [hcongr, List.countP_eq_length_filter]
    obtain ⟨q, hq, hkq⟩ := List.any_eq_true.mp h
    have hpos : 0 < (rows.filter
        fun q => sameKey q r.device_id r.user_id r.timestamp).length := by
      refine List.length_pos.mpr fun hnil => ?_
      have : q ∈ rows.filter fun q => sameKey q r.device_id r.user_id r.timestamp :=
        List.mem_filter.mpr ⟨hq, hkq⟩
      rw [hnil] at this
      exact List.not_mem_nil q this
    exact Nat.le_antisymm
      (filter_key_length_le_one rows r.device_id r.user_id r.timestamp hnd) hpos
  · rw [if_neg h, List.filter_append]
    have hnil : rows.filter (fun q => sameKey q r.device_id r.user_id r.timestamp)
        = [] := by
      refine List.filter_eq_nil_iff.mpr fun q hq => ?_
      exact List.any_eq_false.mp ((Bool.not_eq_true _).mp h) q hq
    rw [hnil]
    simp [sameKey_self]

lemma updateLastSeen_idem (devices : List PGDevice) (userId deviceId ts : String) :
    updateLastSeen (updateLastSeen devices userId deviceId ts) userId deviceId ts
      = updateLastSeen devices userId deviceId ts := by
  unfold updateLastSeen
  rw [List.map_map]
  refine List.map_congr_left fun dev _ => ?_
  simp only [Function.comp_apply]
  by_cases h : (dev.user_id == userId && dev.device_id == deviceId) = true
  · have hmax : max (max dev.last_seen ts) ts = max dev.last_seen ts := by
      rw [max_assoc, max_self]
    simp [h, hmax]
  · simp [h]

end Postgres

namespace Client

/-- `LocationUploadFilter.minDistanceThreshold` (20 m). -/
def minDistanceThreshold : ℚ := 20

/-- `LocationUploadFilter.minTimeInterval` (5 s). -/
def minTimeInterval : ℚ := 5

/-- `LocationUploadFilter.maxAccuracyThreshold` (150 m). -/
def maxAccuracyThreshold : ℚ := 150

/-- `LocationUploadFilter.heartbeatInterval` (600 s). -/
def heartbeatInterval : ℚ := 600

/-- `LocationUploadFilter.accuracyImprovementThreshold` (0.4 = 40%). -/
def accuracyImprovementThreshold : ℚ := 2 / 5

/-- The slice of a `CLLocation` used by the filter: coordinate, horizontal
accuracy (meters) and timestamp (seconds since epoch). -/
structure CLLoc where
  latitude : ℚ
  longitude : ℚ
  horizontalAccuracy : ℚ
  timestamp : ℚ
deriving DecidableEq

/-- `LocationUploadFilter.shouldUpload(deviceId:location:)`
(`src/unnamed/part_007` lines 77-129) for one device. `dist` stands for
`CLLocation.distance(from:)` (a geodesic computed by CoreLocation in
floating point; the claims constrain only its value, so it is a
parameter). `lastLocation`/`lastTimestamp` are the filter state cached for
the device (`lastUploadedLocations[deviceId]`,
`lastUploadedTimestamps[deviceId]`), and `now` is the `Date()` the Swift
code takes at evaluation time. -/
def shouldUpload (dist : CLLoc → CLLoc → ℚ) (lastLocation : Option CLLoc)
    (lastTimestamp : Option ℚ) (now : ℚ) (location : CLLoc) : Bool :=
  if location.horizontalAccuracy > maxAccuracyThreshold then
    match lastLocation with
    | none => true
    | some lastLoc => dist location lastLoc > minDistanceThreshold * 2
  else
    match lastLocation, lastTimestamp with
    | some lastLoc, some lastTs =>
        let timeSinceLastUpload := now - lastTs
        if timeSinceLastUpload < minTimeInterval then false
        else if dist location lastLoc ≥ minDistanceThreshold then true
        else if location.horizontalAccuracy > 0 ∧ lastLoc.horizontalAccuracy > 0 ∧
            (lastLoc.horizontalAccuracy - location.horizontalAccuracy) /
              lastLoc.horizontalAccuracy > accuracyImprovementThreshold then true
        else if timeSinceLastUpload ≥ heartbeatInterval then true
        else false
    | _, _ => true

end Client

namespace Viewer

/-- A location as handled by the React viewer after `normalizeLocation`:
`timestamp` is the millisecond value of `new Date(l.timestamp)`, since the
viewer only ever compares parsed dates. -/
structure ViewLoc where
  deviceId : String
  latitude : ℚ
  longitude : ℚ
  timestamp : ℤ
deriving DecidableEq

/-- One update of the `latestPerDevice` map entry for a device
(`App.tsx` `socket.on('location_update')` handler and the `CatMap`
latest-per-device filter effect):
`if (!existing || new Date(loc.timestamp) > new Date(existing.timestamp))`
— replace only when strictly newer by timestamp. -/
def mergeLatest (cur : Option ViewLoc) (loc : ViewLoc) : Option ViewLoc :=
  match cur with
  | none => some loc
  | some existing =>
      if existing.timestamp < loc.timestamp then some loc else some existing

/-- The latest-per-entity projection for one entity: the trace of the
`latestPerDevice` map entry of that entity as its samples are merged in
delivery order. -/
def latestProjection (ls : List ViewLoc) : Option ViewLoc :=
  ls.foldl mergeLatest none

/-- One `Map.set`-style update of the insertion-ordered association list
backing `latestPerDevice`, as performed for each visited location. -/
def updateLatestAssoc (m : List (String × ViewLoc)) (loc : ViewLoc) :
    List (String × ViewLoc) :=
  match m with
  | [] => [(loc.deviceId, loc)]
  | (k, v) :: rest =>
      if k = loc.deviceId then
        (if v.timestamp < loc.timestamp then (k, loc) else (k, v)) :: rest
      else (k, v) :: updateLatestAssoc rest loc

/-- `Array.from(latestPerDevice.values())` after folding a location list
into the map (the `!showHistoryRef.current` compaction branch). -/
def latestPerDeviceValues (ls : List ViewLoc) : List ViewLoc :=
  (ls.foldl updateLatestAssoc []).map Prod.snd

/-- The `setLocations` updater of the `socket.on('location_update')`
handler (`src/unnamed/part_000` lines 95-110): append the incoming sample;
if history display is off, compact to the latest sample per device. In
`MainApp`, `showHistoryRef.current` is set to `true` once and never
changed ("History is always on"). -/
def locationUpdateStep (prevLocations : List ViewLoc) (showHistory : Bool)
    (loc : ViewLoc) : List ViewLoc :=
  let updatedLocations := prevLocations ++ [loc]
  if showHistory then updatedLocations
  else latestPerDeviceValues updatedLocations

lemma latestProjection_eq_argmax (ls : List ViewLoc) :
    latestProjection ls = ls.argmax ViewLoc.timestamp := by
  unfold latestProjection List.argmax
  congr 1
  funext cur l
  cases cur <;> rfl

/-- The bounding-box summary kept in `lastBoundsRef` by
`MapBoundsUpdater` (`CatMap.tsx`): min/max latitude and longitude plus the
point count. -/
structure BoundsSummary where
  minLat : ℚ
  maxLat : ℚ
  minLng : ℚ
  maxLng : ℚ
  count : Nat
deriving DecidableEq

/-- `computeBounds` of `MapBoundsUpdater`: the fold from the
`±Infinity` seeds equals, on a nonempty list, the fold from the first
point; `count` is the list length. Its call sites guard on nonemptiness,
hence the `Option`. -/
def computeBounds (locs : List ViewLoc) : Option BoundsSummary :=
  match locs with
  | [] => none
  | l :: ls =>
      some <| ls.foldl
        (fun b x =>
          { b with
            minLat := min b.minLat x.latitude
            maxLat := max b.maxLat x.latitude
            minLng := min b.minLng x.longitude
            maxLng := max b.maxLng x.longitude })
        { minLat := l.latitude, maxLat := l.latitude
          minLng := l.longitude, maxLng := l.longitude
          count := (l :: ls).length }

/-- The `eps = 1e-6` jitter threshold of `hasMeaningfulChange`. -/
def eps : ℚ := 1 / 1000000

/-- `hasMeaningfulChange(a, b)` of `MapBoundsUpdater`: a first fit, a
changed point count, or a coordinate of the box moving by more than
`eps`. -/
def hasMeaningfulChange (a : Option BoundsSummary) (b : BoundsSummary) : Bool :=
  match a with
  | none => true
  | some a =>
      a.count != b.count ||
      decide (|a.minLat - b.minLat| > eps) ||
      decide (|a.maxLat - b.maxLat| > eps) ||
      decide (|a.minLng - b.minLng| > eps) ||
      decide (|a.maxLng - b.maxLng| > eps)

/-- A viewport repositioning command issued to the Leaflet map: the
single-point `map.setView([lat, lng], zoom)` fit or the
`map.fitBounds(bounds)` fit. The zoom arithmetic
(`min(max(getZoom(), 19), 22)`) is internal to Leaflet's view state and no
claim depends on it, so the command records the fit inputs only. -/
inductive MapCmd where
  | setView (lat lng : ℚ)
  | fitBounds (pts : List (ℚ × ℚ))
deriving DecidableEq

/-- The state of the auto-fit machinery: `autoFitLockedRef` (set by
`InteractionLock`), `lastBoundsRef`, `lastFitKeyRef`, and the log of
viewport commands issued so far. -/
structure FitState where
  locked : Bool
  lastBounds : Option BoundsSummary
  lastFitKey : Option Nat
  log : List MapCmd
deriving DecidableEq

/-- `const fitList = (fitTargets && fitTargets.length > 0) ? fitTargets :
locations`. -/
def pickFitList (locations : List ViewLoc) (fitTargets : Option (List ViewLoc)) :
    List ViewLoc :=
  match fitTargets with
  | some ts => if ts.length > 0 then ts else locations
  | none => locations

/-- Issue the fit for a (nonempty) fit list: a single point uses
`map.setView`, several points use `map.fitBounds`. -/
def doFit (log : List MapCmd) (fitList : List ViewLoc) : List MapCmd :=
  match fitList with
  | [l] => log ++ [MapCmd.setView l.latitude l.longitude]
  | ls => log ++ [MapCmd.fitBounds (ls.map fun l => (l.latitude, l.longitude))]

/-- The data-driven fit effect of `MapBoundsUpdater` (`CatMap.tsx` lines
92-108): if there are points, bail out when the user lock is set, skip
when the bounding box has no meaningful change, otherwise record the new
box and reposition. -/
def dataTrigger (s : FitState) (locations : List ViewLoc)
    (fitTargets : Option (List ViewLoc)) : FitState :=
  let fitList := pickFitList locations fitTargets
  if fitList.length > 0 then
    if s.locked then s
    else
      match computeBounds fitList with
      | none => s
      | some summary =>
          if hasMeaningfulChange s.lastBounds summary then
            { s with lastBounds := some summary, log := doFit s.log fitList }
          else s
  else s

/-- The fit-key effect of `MapBoundsUpdater` (`CatMap.tsx` lines 111-125):
a not-yet-consumed `fitKey` forces a re-fit of the current fit list —
without consulting the lock and without touching `lastBoundsRef`. -/
def fitKeyTrigger (s : FitState) (k : Nat) (locations : List ViewLoc)
    (fitTargets : Option (List ViewLoc)) : FitState :=
  if s.lastFitKey = some k then s
  else
    let s' := { s with lastFitKey := some k }
    let fitList := pickFitList locations fitTargets
    if fitList.length = 0 then s'
    else { s' with log := doFit s'.log fitList }

/-- `InteractionLock` (`CatMap.tsx` lines 142-154): `zoomstart` /
`dragstart` set `autoFitLockedRef.current = true`; nothing ever resets
it. -/
def userInteract (s : FitState) : FitState := { s with locked := true }

/-- The events that drive the auto-fit state. -/
inductive FitEvent where
  | interact
  | data (locations : List ViewLoc) (fitTargets : Option (List ViewLoc))
  | fitKey (k : Nat) (locations : List ViewLoc) (fitTargets : Option (List ViewLoc))
deriving DecidableEq

/-- Dispatch of one event. -/
def fitStep (s : FitState) : FitEvent → FitState
  | FitEvent.interact => userInteract s
  | FitEvent.data locations fitTargets => dataTrigger s locations fitTargets
  | FitEvent.fitKey k locations fitTargets => fitKeyTrigger s k locations fitTargets

lemma doFit_ne (log : List MapCmd) (l : List ViewLoc) : doFit log l ≠ log := by
  obtain ⟨c, hc⟩ : ∃ c, doFit log l = log ++ [c] := by
    cases l with
    | nil => exact ⟨_, rfl⟩
    | cons x t =>
        cases t with
        | nil => exact ⟨_, rfl⟩
        | cons y t2 => exact ⟨_, rfl⟩
  rw [hc]
  intro heq
  have hlen := congrArg List.length heq
  simp at hlen

end Viewer

/-! ## Facts about the SQLite-backed ingest -/

namespace Sqlite

lemma getLatestLocation_mem {rows : DbState} {d : String} {e : Row}
    (h : getLatestLocation rows d = some e) : e ∈ rows ∧ e.deviceId = d := by
  unfold getLatestLocation at h
  have hm : e ∈ rows.filter fun r => r.deviceId == d :=
    List.argmax_mem (Option.mem_def.mpr h)
  simpa [List.mem_filter] using hm

lemma getLatestLocation_le {rows : DbState} {d : String} {e q : Row}
    (h : getLatestLocation rows d = some e) (hq : q ∈ rows) (hqd : q.deviceId = d) :
    q.timestamp ≤ e.timestamp := by
  unfold getLatestLocation at h
  refine le_of_not_lt (List.not_lt_of_mem_argmax ?_ (Option.mem_def.mpr h))
  simp [List.mem_filter, hq, hqd]

lemma getLatestLocation_append_newest (rows : DbState) (r : Row)
    (hmax : ∀ q ∈ rows, q.deviceId = r.deviceId → q.timestamp < r.timestamp) :
    getLatestLocation (rows ++ [r]) r.deviceId = some r := by
  unfold getLatestLocation
  rw [List.filter_append]
  have hfr : List.filter (fun q => q.deviceId == r.deviceId) [r] = [r] := by simp
  rw [hfr, List.argmax_concat]
  cases hc : (rows.filter fun q => q.deviceId == r.deviceId).argmax Row.timestamp with
  | none => rfl
  | some c =>
      have hcm : c ∈ rows ∧ c.deviceId = r.deviceId := by
        have := List.argmax_mem (Option.mem_def.mpr hc)
        simpa [List.mem_filter] using this
      simp [hmax c hcm.1 hcm.2]

lemma handleLocationUpdate_new (db : DbState) (r : Row) (b : UpdateBody)
    (hb : parseBody b = some r)
    (hne : Option.all (fun e => e.timestamp != r.timestamp)
        (getLatestLocation db r.deviceId) = true) :
    handleLocationUpdate db b = (db ++ [r], UpdateResult.ok r true, [r]) := by
  cases he : getLatestLocation db r.deviceId with
  | none => simp [handleLocationUpdate, hb, he]
  | some e =>
      rw [he] at hne
      simp only [Option.all_some, bne_iff_ne, ne_eq] at hne
      simp [handleLocationUpdate, hb, he, hne]

lemma filter_key_eq_nil (rows : DbState) (r : Row)
    (hmax : ∀ q ∈ rows, q.deviceId = r.deviceId → q.timestamp < r.timestamp) :
    rows.filter (fun q => q.deviceId == r.deviceId && q.timestamp == r.timestamp)
      = [] := by
  rw [List.filter_eq_nil_iff]
  intro q hq
  by_cases hd : q.deviceId = r.deviceId
  · have hne := (hmax q hq hd).ne
    simp [hd, hne]
  · simp [hd]

lemma processBatch_processed (db : DbState) (updates : List UpdateBody) :
    (processBatch db updates).processed
      = updates.countP fun u => (parseBody u).isSome := by
  induction updates generalizing db with
  | nil => simp [processBatch]
  | cons u rest ih =>
      cases hp : parseBody u with
      | none => simp [processBatch, hp, ih, List.countP_cons]
      | some r =>
          cases hg : getLatestLocation db r.deviceId with
          | none => simp [processBatch, hp, hg, ih, List.countP_cons]
          | some e =>
              by_cases hts : e.timestamp = r.timestamp
              · simp [processBatch, hp, hg, hts, ih, List.countP_cons]
              · simp [processBatch, hp, hg, hts, ih, List.countP_cons]

lemma processBatch_filter_invalid (db : DbState) (updates : List UpdateBody) :
    processBatch db (updates.filter fun u => (parseBody u).isSome)
      = processBatch db updates := by
  induction updates generalizing db with
  | nil => simp
  | cons u rest ih =>
      cases hp : parseBody u with
      | none => simp [List.filter_cons, hp, processBatch, ih]
      | some r =>
          cases hg : getLatestLocation db r.deviceId with
          | none => simp [List.filter_cons, hp, processBatch, hg, ih]
          | some e =>
              by_cases hts : e.timestamp = r.timestamp
              · simp [List.filter_cons, hp, processBatch, hg, hts, ih]
              · simp [List.filter_cons, hp, processBatch, hg, hts, ih]

lemma processBatch_newLocations (db : DbState) (updates : List UpdateBody) :
    (processBatch db updates).newLocations + db.length
      = (processBatch db updates).db.length := by
  induction updates generalizing db with
  | nil => simp [processBatch]
  | cons u rest ih =>
      cases hp : parseBody u with
      | none => simp [processBatch, hp, ih]
      | some r =>
          cases hg : getLatestLocation db r.deviceId with
          | none =>
              have h := ih (db ++ [r])
              simp only [List.length_append, List.length_singleton] at h
              simp only [processBatch, hp, hg]
              omega
          | some e =>
              by_cases hts : e.timestamp = r.timestamp
              · simp [processBatch, hp, hg, hts, ih]
              · have h := ih (db ++ [r])
                simp only [List.length_append, List.length_singleton] at h
                simp [processBatch, hp, hg, hts]
                omega

end Sqlite

/-! ## Concrete ingest scenarios (shared by several claims) -/

/-- An in-order sample: device `cat` at the later timestamp. -/
def rowT2 : Sqlite.Row := ⟨"cat", 1, 2, "2024-01-02"⟩

/-- Request body submitting `rowT2`. -/
def bodyT2 : Sqlite.UpdateBody := ⟨some "cat", some 1, some 2, some "2024-01-02"⟩

/-- An out-of-order sample: device `cat` at the earlier timestamp. -/
def rowT1 : Sqlite.Row := ⟨"cat", 3, 4, "2024-01-01"⟩

/-- Request body submitting `rowT1`. -/
def bodyT1 : Sqlite.UpdateBody := ⟨some "cat", some 3, some 4, some "2024-01-01"⟩

/-- C1 (counterexample): the claim "submitting the same (deviceId,
timestamp) sample twice in succession makes the second submission return
`isNew=false` with no write and exactly one stored row" fails at a
concrete input. Starting from the empty store, submit the device's sample
at the later timestamp, then submit the earlier-timestamp sample twice in
succession: the second of the two identical submissions again returns
`isNew=true`, writes, broadcasts, and leaves two stored rows with the
same (deviceId, timestamp). -/
theorem ingest_double_submit_not_idempotent :
    Sqlite.handleLocationUpdate
        (Sqlite.handleLocationUpdate
          (Sqlite.handleLocationUpdate [] bodyT2).1 bodyT1).1 bodyT1
      = ([rowT2, rowT1, rowT1], Sqlite.UpdateResult.ok rowT1 true, [rowT1])
    ∧ ((Sqlite.handleLocationUpdate
          (Sqlite.handleLocationUpdate
            (Sqlite.handleLocationUpdate [] bodyT2).1 bodyT1).1 bodyT1).1.filter
        fun q => q.deviceId == "cat" && q.timestamp == "2024-01-01").length = 2 := by
  decide

/-- C1 (amended): the duplicate condition of the ingest endpoint is an
exact timestamp match against the device's *currently latest* stored row:
(a) when the latest row's timestamp equals the candidate's, the endpoint
answers success with `isNew=false`, writes nothing and broadcasts nothing;
(b) when there is no latest row or its timestamp differs, the endpoint
appends the sample, answers `isNew=true` and broadcasts it;
(c) consequently double submission is idempotent when the candidate is
strictly newer than everything stored for the device (in-order
submission): the second submission answers `isNew=false` with no write
and no broadcast, and exactly one row carries the (deviceId, timestamp)
key. (Out-of-order resubmission can instead duplicate a row, see C10.) -/
theorem ingest_dedup_against_latest (db : Sqlite.DbState) (r : Sqlite.Row)
    (b : Sqlite.UpdateBody) (hb : Sqlite.parseBody b = some r) :
    (∀ e, Sqlite.getLatestLocation db r.deviceId = some e →
        e.timestamp = r.timestamp →
        Sqlite.handleLocationUpdate db b = (db, Sqlite.UpdateResult.ok e false, []))
    ∧ (Option.all (fun e => e.timestamp != r.timestamp)
          (Sqlite.getLatestLocation db r.deviceId) = true →
        Sqlite.handleLocationUpdate db b
          = (db ++ [r], Sqlite.UpdateResult.ok r true, [r]))
    ∧ ((∀ q ∈ db, q.deviceId = r.deviceId → q.timestamp < r.timestamp) →
        Sqlite.handleLocationUpdate (Sqlite.handleLocationUpdate db b).1 b
            = ((Sqlite.handleLocationUpdate db b).1,
                Sqlite.UpdateResult.ok r false, [])
          ∧ ((Sqlite.handleLocationUpdate db b).1.filter
                fun q => q.deviceId == r.deviceId && q.timestamp == r.timestamp).length
              = 1) := by
  have hdup : ∀ e, Sqlite.getLatestLocation db r.deviceId = some e →
      e.timestamp = r.timestamp →
      Sqlite.handleLocationUpdate db b = (db, Sqlite.UpdateResult.ok e false, []) := by
    intro e he hts
    simp [Sqlite.handleLocationUpdate, hb, he, hts]
  have hnew := Sqlite.handleLocationUpdate_new db r b hb
  refine ⟨hdup, hnew, ?_⟩
  intro hmax
  have hfirst : Sqlite.handleLocationUpdate db b
      = (db ++ [r], Sqlite.UpdateResult.ok r true, [r]) := by
    apply hnew
    cases he : Sqlite.getLatestLocation db r.deviceId with
    | none => rfl
    | some e =>
        obtain ⟨hmem, hdev⟩ := Sqlite.getLatestLocation_mem he
        have := (hmax e hmem hdev).ne
        simp [this]
  have hlatest := Sqlite.getLatestLocation_append_newest db r hmax
  constructor
  · rw [hfirst]
    simp [Sqlite.handleLocationUpdate, hb, hlatest]
  · rw [hfirst]
    simp only [List.filter_append, Sqlite.filter_key_eq_nil db r hmax,
      List.nil_append]
    simp

/-- C1 (witness): the amended statement at a concrete input — a cold-start
double submission of the same sample: the second submission is a no-op
answering `isNew=false`, with exactly one stored row for the key. -/
theorem ingest_dedup_against_latest_witness :
    Sqlite.handleLocationUpdate (Sqlite.handleLocationUpdate [] bodyT2).1 bodyT2
        = ((Sqlite.handleLocationUpdate [] bodyT2).1,
            Sqlite.UpdateResult.ok rowT2 false, [])
      ∧ ((Sqlite.handleLocationUpdate [] bodyT2).1.filter
            fun q => q.deviceId == rowT2.deviceId
              && q.timestamp == rowT2.timestamp).length = 1 :=
  (ingest_dedup_against_latest [] rowT2 bodyT2 (by decide)).2.2 (by simp)

/-- Two samples of one entity with distinct timestamps. -/
def viewA : Viewer.ViewLoc := ⟨"cat", 0, 0, 10⟩

/-- A later sample of the same entity. -/
def viewB : Viewer.ViewLoc := ⟨"cat", 1, 1, 20⟩

/-- C3: for one entity and a fixed finite set of samples with
pairwise-distinct timestamps, folding them into the latest-per-entity
projection yields the same final projection in any delivery order; and
each incremental merge replaces the current entry exactly when the
incoming sample is strictly newer by timestamp — never by arrival
order. -/
theorem latest_projection_order_independent (l₁ l₂ : List Viewer.ViewLoc)
    (hperm : l₁.Perm l₂)
    (hpw : l₁.Pairwise fun a b => a.timestamp ≠ b.timestamp) :
    Viewer.latestProjection l₁ = Viewer.latestProjection l₂
    ∧ ∀ cur incoming : Viewer.ViewLoc,
        Viewer.mergeLatest (some cur) incoming
          = if cur.timestamp < incoming.timestamp then some incoming
            else some cur := by
  constructor
  · rw [Viewer.latestProjection_eq_argmax, Viewer.latestProjection_eq_argmax]
    cases hl₁ : l₁.argmax Viewer.ViewLoc.timestamp with
    | none =>
        have h₁ : l₁ = [] := List.argmax_eq_none.mp hl₁
        have h₂ : l₂ = [] := List.perm_nil.mp (h₁ ▸ hperm).symm
        rw [h₂, List.argmax_nil]
    | some m₁ =>
        cases hl₂ : l₂.argmax Viewer.ViewLoc.timestamp with
        | none =>
            have h₂ : l₂ = [] := List.argmax_eq_none.mp hl₂
            have h₁ : l₁ = [] := List.perm_nil.mp (h₂ ▸ hperm)
            rw [h₁, List.argmax_nil] at hl₁
            exact absurd hl₁ (by simp)
        | some m₂ =>
            have hm₁ : m₁ ∈ l₁ := List.argmax_mem (Option.mem_def.mpr hl₁)
            have hm₂ : m₂ ∈ l₂ := List.argmax_mem (Option.mem_def.mpr hl₂)
            have hm₁l₂ : m₁ ∈ l₂ := hperm.subset hm₁
            have hm₂l₁ : m₂ ∈ l₁ := hperm.symm.subset hm₂
            have hle₁ : m₁.timestamp ≤ m₂.timestamp :=
              le_of_not_lt (List.not_lt_of_mem_argmax hm₁l₂ (Option.mem_def.mpr hl₂))
            have hle₂ : m₂.timestamp ≤ m₁.timestamp :=
              le_of_not_lt (List.not_lt_of_mem_argmax hm₂l₁ (Option.mem_def.mpr hl₁))
            have hts : m₁.timestamp = m₂.timestamp := le_antisymm hle₁ hle₂
            have hmeq : m₁ = m₂ := by
              by_contra hne
              exact (List.Pairwise.forall (fun x y h => Ne.symm h) hpw)
                hm₁ hm₂l₁ hne hts
            rw [hmeq]
  · intro cur incoming
    rfl

/-- C3 (witness): the two delivery orders of two distinct-timestamp
samples of one entity converge to the same projection, and one merge step
follows the strictly-newer rule. -/
theorem latest_projection_order_independent_witness :
    Viewer.latestProjection [viewA, viewB] = Viewer.latestProjection [viewB, viewA]
    ∧ Viewer.mergeLatest (some viewA) viewB
        = if viewA.timestamp < viewB.timestamp then some viewB else some viewA := by
  have h := latest_projection_order_independent [viewA, viewB] [viewB, viewA]
    (List.Perm.swap viewB viewA []) (by decide)
  exact ⟨h.1, h.2 viewA viewB⟩

/-- C7 (counterexample): the claim "re-appending a live-delta sample whose
(entityId, timestamp) is already present in the history is a no-op" fails
at a concrete input: with history display on (the app keeps it always on),
merging an already-present sample appends a second copy. -/
theorem history_insert_duplicate_not_noop :
    Viewer.locationUpdateStep [viewA] true viewA = [viewA, viewA]
    ∧ Viewer.locationUpdateStep [viewA] true viewA ≠ [viewA] := by
  decide

/-- C7 (amended): the `location_update` handler's history update is a
plain unconditional append: merging a sample — present already or not —
extends the history by exactly that sample, so re-merging a duplicate
(entityId, timestamp) grows the history instead of being a no-op; no
deduplication is performed. -/
theorem history_insert_appends (hist : List Viewer.ViewLoc)
    (l : Viewer.ViewLoc) :
    Viewer.locationUpdateStep hist true l = hist ++ [l]
    ∧ (Viewer.locationUpdateStep hist true l).length = hist.length + 1 := by
  refine ⟨rfl, ?_⟩
  simp [Viewer.locationUpdateStep]

/-- C4: for a device with existing filter state and a candidate within the
150 m accuracy gate: `shouldUpload` rejects when the candidate moved less
than 20 m, the elapsed time since the last upload is in [5 s, 600 s), and
accuracy did not improve by more than 40% relative to the last uploaded
accuracy; and it accepts whenever the candidate moved at least 20 m and
at least 5 s elapsed. -/
theorem shouldUpload_distance_time_gate (dist : Client.CLLoc → Client.CLLoc → ℚ)
    (lastLoc : Client.CLLoc) (lastTs now : ℚ) (loc : Client.CLLoc)
    (hacc : loc.horizontalAccuracy ≤ Client.maxAccuracyThreshold) :
    (dist loc lastLoc < Client.minDistanceThreshold →
      Client.minTimeInterval ≤ now - lastTs →
      now - lastTs < Client.heartbeatInterval →
      0 < loc.horizontalAccuracy → 0 < lastLoc.horizontalAccuracy →
      (lastLoc.horizontalAccuracy - loc.horizontalAccuracy)
          / lastLoc.horizontalAccuracy ≤ Client.accuracyImprovementThreshold →
      Client.shouldUpload dist (some lastLoc) (some lastTs) now loc = false)
    ∧ (Client.minDistanceThreshold ≤ dist loc lastLoc →
      Client.minTimeInterval ≤ now - lastTs →
      Client.shouldUpload dist (some lastLoc) (some lastTs) now loc = true) := by
  constructor
  · intro hd ht hhb hca hla himp
    have himpneg : ¬(loc.horizontalAccuracy > 0 ∧ lastLoc.horizontalAccuracy > 0 ∧
        (lastLoc.horizontalAccuracy - loc.horizontalAccuracy)
            / lastLoc.horizontalAccuracy > Client.accuracyImprovementThreshold) :=
      fun hcon => absurd hcon.2.2 (not_lt.mpr himp)
    unfold Client.shouldUpload
    simp only [if_neg (not_lt.mpr hacc), if_neg (not_lt.mpr ht),
      if_neg (not_le.mpr hd), if_neg himpneg, if_neg (not_le.mpr hhb)]
  · intro hd ht
    unfold Client.shouldUpload
    simp only [if_neg (not_lt.mpr hacc), if_neg (not_lt.mpr ht), if_pos hd]

/-- C4 (witness): with the last upload 10 s ago and accuracies 12 m → 10 m
(a 1/6 improvement, below 40%), a 7 m move is rejected while a 25 m move
is accepted. -/
theorem shouldUpload_distance_time_gate_witness :
    Client.shouldUpload (fun _ _ => 7) (some ⟨37, -122, 12, 100⟩) (some 100) 110
        ⟨37, -122, 10, 104⟩ = false
    ∧ Client.shouldUpload (fun _ _ => 25) (some ⟨37, -122, 12, 100⟩) (some 100) 110
        ⟨37, -122, 10, 104⟩ = true := by
  constructor
  · exact (shouldUpload_distance_time_gate (fun _ _ => 7) ⟨37, -122, 12, 100⟩
      100 110 ⟨37, -122, 10, 104⟩
      (by norm_num [Client.maxAccuracyThreshold])).1
      (by norm_num [Client.minDistanceThreshold])
      (by norm_num [Client.minTimeInterval])
      (by norm_num [Client.heartbeatInterval])
      (by norm_num) (by norm_num)
      (by norm_num [Client.accuracyImprovementThreshold])
  · exact (shouldUpload_distance_time_gate (fun _ _ => 25) ⟨37, -122, 12, 100⟩
      100 110 ⟨37, -122, 10, 104⟩
      (by norm_num [Client.maxAccuracyThreshold])).2
      (by norm_num [Client.minDistanceThreshold])
      (by norm_num [Client.minTimeInterval])

/-- A map point for the viewport scenarios. -/
def fitP1 : Viewer.ViewLoc := ⟨"cat", 0, 0, 0⟩

/-- A second map point for the viewport scenarios. -/
def fitP2 : Viewer.ViewLoc := ⟨"cat", 1, 1, 5⟩

/-- The initial auto-fit state: unlocked, no bounds fitted yet. -/
def fitS0 : Viewer.FitState := ⟨false, none, none, []⟩

/-- C8 (counterexample): the claim "while locked, every fit trigger —
including an explicit one-shot fit-key increment — performs no viewport
repositioning" fails at a concrete input: after a manual interaction locks
the viewport, a fresh fit-key trigger still issues a `fitBounds`
repositioning (the fit-key effect never consults the lock). -/
theorem fitkey_bypasses_lock :
    (Viewer.fitStep fitS0 Viewer.FitEvent.interact).locked = true
    ∧ (Viewer.fitStep (Viewer.fitStep fitS0 Viewer.FitEvent.interact)
          (Viewer.FitEvent.fitKey 1 [fitP1, fitP2] none)).log
        = [Viewer.MapCmd.fitBounds [(0, 0), (1, 1)]]
    ∧ (Viewer.fitStep fitS0 Viewer.FitEvent.interact).log = [] := by
  decide

/-- C8 (amended): once the viewer manually pans or zooms the locked flag
becomes true and stays true for the session (no event resets it), and
while locked every *data-driven* fit trigger performs no viewport change
at all; an explicit fit-key increment, however, bypasses the lock and
still repositions whenever its fit list is nonempty. -/
theorem lock_sticky_data_fits_suppressed :
    (∀ s : Viewer.FitState,
      (Viewer.fitStep s Viewer.FitEvent.interact).locked = true)
    ∧ (∀ (s : Viewer.FitState) (e : Viewer.FitEvent),
        s.locked = true → (Viewer.fitStep s e).locked = true)
    ∧ (∀ (s : Viewer.FitState) (locs : List Viewer.ViewLoc)
        (fts : Option (List Viewer.ViewLoc)), s.locked = true →
        Viewer.fitStep s (Viewer.FitEvent.data locs fts) = s)
    ∧ (∀ (s : Viewer.FitState) (k : Nat) (locs : List Viewer.ViewLoc)
        (fts : Option (List Viewer.ViewLoc)), s.locked = true →
        s.lastFitKey ≠ some k → Viewer.pickFitList locs fts ≠ [] →
        (Viewer.fitStep s (Viewer.FitEvent.fitKey k locs fts)).log ≠ s.log) := by
  refine ⟨fun s => rfl, ?_, ?_, ?_⟩
  · intro s e h
    cases e with
    | interact => simp [Viewer.fitStep, Viewer.userInteract]
    | data locs fts =>
        simp only [Viewer.fitStep, Viewer.dataTrigger]
        repeat' split
        all_goals exact h
    | fitKey k locs fts =>
        simp only [Viewer.fitStep, Viewer.fitKeyTrigger]
        repeat' split
        all_goals exact h
  · intro s locs fts h
    simp [Viewer.fitStep, Viewer.dataTrigger, h]
  · intro s k locs fts h hk hne
    simp only [Viewer.fitStep, Viewer.fitKeyTrigger]
    rw [if_neg hk]
    rw [if_neg fun h0 => hne (List.length_eq_zero.mp h0)]
    exact Viewer.doFit_ne s.log (Viewer.pickFitList locs fts)

/-- C8 (witness): the amended statement at concrete inputs — a locked
state absorbs a data trigger unchanged while a fresh fit-key trigger
changes the command log. -/
theorem lock_sticky_data_fits_suppressed_witness :
    (Viewer.fitStep ⟨true, none, none, []⟩
        (Viewer.FitEvent.data [fitP1] none)).locked = true
    ∧ Viewer.fitStep ⟨true, none, none, []⟩ (Viewer.FitEvent.data [fitP1] none)
        = ⟨true, none, none, []⟩
    ∧ (Viewer.fitStep ⟨true, none, none, []⟩
          (Viewer.FitEvent.fitKey 1 [fitP1] none)).log
        ≠ (⟨true, none, none, []⟩ : Viewer.FitState).log := by
  have h := lock_sticky_data_fits_suppressed
  exact ⟨h.2.1 ⟨true, none, none, []⟩ (Viewer.FitEvent.data [fitP1] none) rfl,
    h.2.2.1 ⟨true, none, none, []⟩ [fitP1] none rfl,
    h.2.2.2 ⟨true, none, none, []⟩ 1 [fitP1] none rfl (by decide) (by decide)⟩

/-- C9: with the viewport unlocked and a previous fit recorded in
`lastBounds`, a data-driven fit trigger whose bounding box differs from
the recorded one by less than `eps = 1e-6` degrees in every dimension with
an unchanged point count leaves the state (and in particular the command
log) untouched; a trigger whose box differs by more than `eps` in some
dimension, or whose point count changed, issues a repositioning
command. -/
theorem viewport_jitter_suppression (s : Viewer.FitState)
    (b b₂ b₃ : Viewer.BoundsSummary) (l₂ l₃ : List Viewer.ViewLoc)
    (hlock : s.locked = false) (hlast : s.lastBounds = some b)
    (h₂ : Viewer.computeBounds l₂ = some b₂) (hcount : b.count = b₂.count)
    (hminLat : |b.minLat - b₂.minLat| < Viewer.eps)
    (hmaxLat : |b.maxLat - b₂.maxLat| < Viewer.eps)
    (hminLng : |b.minLng - b₂.minLng| < Viewer.eps)
    (hmaxLng : |b.maxLng - b₂.maxLng| < Viewer.eps)
    (h₃ : Viewer.computeBounds l₃ = some b₃)
    (hchange : b.count ≠ b₃.count ∨ Viewer.eps < |b.minLat - b₃.minLat|
      ∨ Viewer.eps < |b.maxLat - b₃.maxLat| ∨ Viewer.eps < |b.minLng - b₃.minLng|
      ∨ Viewer.eps < |b.maxLng - b₃.maxLng|) :
    Viewer.fitStep s (Viewer.FitEvent.data l₂ none) = s
    ∧ (Viewer.fitStep s (Viewer.FitEvent.data l₃ none)).log ≠ s.log := by
  have hnil : ∀ (l : List Viewer.ViewLoc) (bb : Viewer.BoundsSummary),
      Viewer.computeBounds l = some bb → 0 < l.length := by
    intro l bb hl
    cases l with
    | nil => simp [Viewer.computeBounds] at hl
    | cons x t => simp
  constructor
  · have hnomc : Viewer.hasMeaningfulChange (some b) b₂ = false := by
      simp [Viewer.hasMeaningfulChange, hcount, not_lt.mpr (le_of_lt hminLat),
        not_lt.mpr (le_of_lt hmaxLat), not_lt.mpr (le_of_lt hminLng),
        not_lt.mpr (le_of_lt hmaxLng)]
    simp only [Viewer.fitStep, Viewer.dataTrigger, Viewer.pickFitList]
    rw [if_pos (hnil l₂ b₂ h₂), if_neg (by simp [hlock]), h₂]
    simp only [hlast, hnomc]
    simp
  · have hmc : Viewer.hasMeaningfulChange (some b) b₃ = true := by
      simp only [Viewer.hasMeaningfulChange, Bool.or_eq_true, bne_iff_ne, ne_eq,
        decide_eq_true_eq]
      rcases hchange with h | h | h | h | h
      · exact Or.inl (Or.inl (Or.inl (Or.inl h)))
      · exact Or.inl (Or.inl (Or.inl (Or.inr h)))
      · exact Or.inl (Or.inl (Or.inr h))
      · exact Or.inl (Or.inr h)
      · exact Or.inr h
    simp only [Viewer.fitStep, Viewer.dataTrigger, Viewer.pickFitList]
    rw [if_pos (hnil l₃ b₃ h₃), if_neg (by simp [hlock]), h₃]
    simp only [hlast, hmc, if_pos]
    exact Viewer.doFit_ne s.log l₃

/-- C9 (witness): from a state that last fitted the box of the two demo
points, re-fitting the identical point set changes nothing, while a point
set whose box moved by 2 degrees repositions. -/
theorem viewport_jitter_suppression_witness :
    Viewer.fitStep ⟨false, some ⟨0, 1, 0, 1, 2⟩, none, []⟩
        (Viewer.FitEvent.data [fitP1, fitP2] none)
      = ⟨false, some ⟨0, 1, 0, 1, 2⟩, none, []⟩
    ∧ (Viewer.fitStep ⟨false, some ⟨0, 1, 0, 1, 2⟩, none, []⟩
          (Viewer.FitEvent.data [⟨"cat", 0, 0, 0⟩, ⟨"cat", 3, 1, 5⟩] none)).log
        ≠ (⟨false, some ⟨0, 1, 0, 1, 2⟩, none, []⟩ : Viewer.FitState).log := by
  have h := viewport_jitter_suppression ⟨false, some ⟨0, 1, 0, 1, 2⟩, none, []⟩
    ⟨0, 1, 0, 1, 2⟩ ⟨0, 1, 0, 1, 2⟩ ⟨0, 3, 0, 1, 2⟩
    [fitP1, fitP2] [⟨"cat", 0, 0, 0⟩, ⟨"cat", 3, 1, 5⟩]
    rfl rfl (by decide) rfl
    (by norm_num [Viewer.eps]) (by norm_num [Viewer.eps])
    (by norm_num [Viewer.eps]) (by norm_num [Viewer.eps])
    (by decide)
    (Or.inr (Or.inr (Or.inl (by norm_num [Viewer.eps]))))
  exact h

/-- The state and payload used to witness the PostgreSQL claims. -/
def pgS0 : Postgres.PGState := ⟨[], []⟩

/-- A concrete `addLocation` payload. -/
def pgLoc0 : Postgres.LocationInput := ⟨1, 2, none, none, none, none, "2024-01-01"⟩

/-- C2: `PostgresDatabase.addLocation` persists through an idempotent
upsert keyed by `(device_id, user_id, timestamp)`: re-running the
transaction body with the same sample leaves the store exactly as one run
does (any number of repetitions collapses to one), and under the table's
key-uniqueness invariant exactly one row carries the sample's key
afterwards — regardless of what the entity's current latest row is, so
blind client retries are safe. -/
theorem addLocation_upsert_idempotent (s : Postgres.PGState)
    (userId deviceId : String) (loc : Postgres.LocationInput) :
    Postgres.addLocationTx (Postgres.addLocationTx s userId deviceId loc)
        userId deviceId loc
      = Postgres.addLocationTx s userId deviceId loc
    ∧ (∀ n : Nat,
        (fun st => Postgres.addLocationTx st userId deviceId loc)^[n + 1] s
          = Postgres.addLocationTx s userId deviceId loc)
    ∧ (Postgres.KeysDistinct s.locations →
        ((Postgres.addLocationTx s userId deviceId loc).locations.filter
            fun q => Postgres.sameKey q deviceId userId loc.timestamp).length
          = 1) := by
  have hidem : Postgres.addLocationTx (Postgres.addLocationTx s userId deviceId loc)
      userId deviceId loc = Postgres.addLocationTx s userId deviceId loc := by
    simp [Postgres.addLocationTx, Postgres.updateLastSeen_idem, Postgres.upsert_idem]
  refine ⟨hidem, ?_, ?_⟩
  · intro n
    induction n with
    | zero => simp
    | succ n ih => rw [Function.iterate_succ_apply', ih]; exact hidem
  · intro hnd
    exact Postgres.upsert_count_key s.locations
      (Postgres.mkRow userId deviceId loc) hnd

/-- C2 (witness): the idempotent upsert at a concrete state and sample —
rerunning the write changes nothing and exactly one row holds the key. -/
theorem addLocation_upsert_idempotent_witness :
    Postgres.addLocationTx (Postgres.addLocationTx pgS0 "alice" "cat" pgLoc0)
        "alice" "cat" pgLoc0
      = Postgres.addLocationTx pgS0 "alice" "cat" pgLoc0
    ∧ ((Postgres.addLocationTx pgS0 "alice" "cat" pgLoc0).locations.filter
        fun q => Postgres.sameKey q "cat" "alice" pgLoc0.timestamp).length = 1 := by
  have h := addLocation_upsert_idempotent pgS0 "alice" "cat" pgLoc0
  exact ⟨h.1, h.2.2 (by simp [Postgres.KeysDistinct, pgS0])⟩

/-- A concrete valid request body against the PostgreSQL server. -/
def pgBody0 : Postgres.PGBody := ⟨some "cat", some 1, some 2, some "2024-01-01", none⟩

/-- C5: the sample insert and the device `last_seen` update run in one
transaction. When the insert fails on a fresh (non-duplicate) sample, the
transaction rolls back: the observable store is exactly the original one
(no partial write — in particular the `last_seen` update is discarded),
the endpoint answers HTTP 500, and nothing is broadcast. Conversely a
broadcast happens only in runs where the transaction committed, and then
the observable store is exactly the committed transaction body. -/
theorem addLocation_transaction_atomic (s : Postgres.PGState) (userId : String)
    (b : Postgres.PGBody) (deviceId : String) (input : Postgres.LocationInput)
    (hb : Postgres.parsePGBody b = some (deviceId, input)) :
    (Option.all (fun e => e.timestamp != input.timestamp)
        (Postgres.getLatestLocations s.locations userId deviceId) = true →
      Postgres.handleUpdatePG s userId b true
        = (s, Postgres.PGUpdateResult.serverError, []))
    ∧ ∀ fails, (Postgres.handleUpdatePG s userId b fails).2.2 ≠ [] →
        fails = false
        ∧ (Postgres.handleUpdatePG s userId b fails).1
            = Postgres.addLocationTx s userId deviceId input := by
  constructor
  · intro hall
    cases hg : Postgres.getLatestLocations s.locations userId deviceId with
    | none =>
        simp [Postgres.handleUpdatePG, hb, hg, Postgres.addLocation]
    | some e =>
        rw [hg] at hall
        simp only [Option.all_some, bne_iff_ne, ne_eq] at hall
        simp [Postgres.handleUpdatePG, hb, hg, hall, Postgres.addLocation]
  · intro fails hne
    cases hg : Postgres.getLatestLocations s.locations userId deviceId with
    | none =>
        cases fails with
        | true =>
            exfalso
            apply hne
            simp [Postgres.handleUpdatePG, hb, hg, Postgres.addLocation]
        | false =>
            refine ⟨rfl, ?_⟩
            simp [Postgres.handleUpdatePG, hb, hg, Postgres.addLocation]
    | some e =>
        by_cases hts : e.timestamp = input.timestamp
        · exfalso
          apply hne
          simp [Postgres.handleUpdatePG, hb, hg, hts]
        · cases fails with
          | true =>
              exfalso
              apply hne
              simp [Postgres.handleUpdatePG, hb, hg, hts, Postgres.addLocation]
          | false =>
              refine ⟨rfl, ?_⟩
              simp [Postgres.handleUpdatePG, hb, hg, hts, Postgres.addLocation]

/-- C5 (witness): a failing insert on the empty store answers HTTP 500
with the store untouched and no broadcast; the same request with a
healthy insert broadcasts and leaves exactly the committed state. -/
theorem addLocation_transaction_atomic_witness :
    Postgres.handleUpdatePG pgS0 "alice" pgBody0 true
        = (pgS0, Postgres.PGUpdateResult.serverError, [])
    ∧ (false = false
        ∧ (Postgres.handleUpdatePG pgS0 "alice" pgBody0 false).1
            = Postgres.addLocationTx pgS0 "alice" "cat" pgLoc0) := by
  have h := addLocation_transaction_atomic pgS0 "alice" pgBody0 "cat" pgLoc0
    (by decide)
  exact ⟨h.1 (by decide), h.2 false (by decide)⟩

/-- C10: the duplicate check of `POST /api/locations/update` compares the
candidate's timestamp only against the single most-recent stored row.
Whenever the current latest timestamp differs from the candidate's, the
endpoint persists and answers `isNew=true` — even if an older, non-latest
stored row already carries the identical (deviceId, timestamp), in which
case the SQLite history table ends up with (at least) two rows with the
same (deviceId, timestamp) key. -/
theorem ingest_dedup_latest_only_allows_duplicates (db : Sqlite.DbState)
    (r : Sqlite.Row) (b : Sqlite.UpdateBody) (hb : Sqlite.parseBody b = some r)
    (hne : Option.all (fun e => e.timestamp != r.timestamp)
        (Sqlite.getLatestLocation db r.deviceId) = true) :
    Sqlite.handleLocationUpdate db b
        = (db ++ [r], Sqlite.UpdateResult.ok r true, [r])
    ∧ ∀ q ∈ db, q.deviceId = r.deviceId → q.timestamp = r.timestamp →
        2 ≤ ((db ++ [r]).filter
              fun p => p.deviceId == r.deviceId && p.timestamp == r.timestamp).length := by
  refine ⟨Sqlite.handleLocationUpdate_new db r b hb hne, ?_⟩
  intro q hq hdev hts
  have hqf : q ∈ db.filter
      fun p => p.deviceId == r.deviceId && p.timestamp == r.timestamp := by
    simp [List.mem_filter, hq, hdev, hts]
  have h1 : 0 < (db.filter
      fun p => p.deviceId == r.deviceId && p.timestamp == r.timestamp).length := by
    refine List.length_pos.mpr fun hnil => ?_
    rw [hnil] at hqf
    exact List.not_mem_nil q hqf
  rw [List.filter_append]
  have hr : List.filter
      (fun p => p.deviceId == r.deviceId && p.timestamp == r.timestamp) [r] = [r] := by
    simp
  rw [hr, List.length_append, List.length_singleton]
  omega

/-- C6: for every batch request that is a JSON array, the response is
`{success: true, processed, newLocations}` where: the request never fails
because of invalid entries; removing entries missing a deviceId or
timestamp or with non-numeric latitude/longitude changes nothing (they are
silently skipped without affecting the other entries); `processed` counts
exactly the valid entries; and `newLocations` counts exactly the entries
that were newly persisted (the store grows by `newLocations` rows). -/
theorem batch_update_skips_invalid (db : Sqlite.DbState)
    (updates : List Sqlite.UpdateBody) :
    (Sqlite.handleBatchUpdate db updates).2.1 = true
    ∧ (Sqlite.processBatch db updates).processed
        = updates.countP (fun u => (Sqlite.parseBody u).isSome)
    ∧ Sqlite.processBatch db (updates.filter fun u => (Sqlite.parseBody u).isSome)
        = Sqlite.processBatch db updates
    ∧ (Sqlite.processBatch db updates).newLocations + db.length
        = (Sqlite.processBatch db updates).db.length := by
  refine ⟨?_, Sqlite.processBatch_processed db updates,
    Sqlite.processBatch_filter_invalid db updates,
    Sqlite.processBatch_newLocations db updates⟩
  rfl

/-- C10 (witness): with the store holding the device's rows at the later
timestamp and at the earlier one, resubmitting the earlier-timestamp
sample persists again (`isNew=true`) and the store then holds two rows
with that (deviceId, timestamp). -/
theorem ingest_dedup_latest_only_allows_duplicates_witness :
    Sqlite.handleLocationUpdate [rowT2, rowT1] bodyT1
        = ([rowT2, rowT1] ++ [rowT1], Sqlite.UpdateResult.ok rowT1 true, [rowT1])
    ∧ 2 ≤ (([rowT2, rowT1] ++ [rowT1]).filter
          fun p => p.deviceId == rowT1.deviceId
            && p.timestamp == rowT1.timestamp).length := by
  have h := ingest_dedup_latest_only_allows_duplicates [rowT2, rowT1] rowT1 bodyT1
    (by decide) (by decide)
  exact ⟨h.1, h.2 rowT1 (by decide) rfl rfl⟩

end FindMyCat
